import Mathlib

/-!
Shallow embedding of `src/mod_spdy/apache/spdy_input_filter.cc`:
the `SpdyToHttpConverterFactory` (a FIFO queue of per-stream
`HttpStreamAccumulator`s drained through a single unified `Read`) and the
`SpdyInputFilter::Read` entry point (NPN protocol-detection gate, frame-pump
loop, error surfacing, pass-through).

The `HttpStreamAccumulator` implementation is not part of the repository's
staged sources (only its uses in `spdy_input_filter.cc` are), so the
accumulator itself is modelled from the spec (section 4.4): a passive
per-stream buffer with `isEmpty` / `isComplete` / `hasError` queries and a
pull-style `read` that drains buffered bytes without blocking.  The frame
pump, distributor and converter are likewise external to the staged file and
appear only as an abstract environment (a list of queue transformations
consumed one per `PumpOneFrame` call).
-/

namespace ModSpdy

/-- Status codes: the subset of `apr_status_t` values that
`spdy_input_filter.cc` mentions, plus `other` for arbitrary upstream codes. -/
inductive Status where
  | success
  | egeneral
  | eagain
  | econnaborted
  | other (code : Nat)
deriving DecidableEq, Repr

/-- Buckets of an APR brigade, as the filter uses them: data buckets carrying
bytes, and the end-of-stream marker bucket (`apr_bucket_eos_create`). -/
inductive Bucket where
  | bytes (payload : List Nat)
  | eos
deriving DecidableEq, Repr

/-- The byte content of a brigade, flattening data buckets. -/
def brigadeBytes (brigade : List Bucket) : List Nat :=
  brigade.foldr (fun b acc => match b with | .bytes p => p ++ acc | .eos => acc) []

/-- Modelled from the spec: `HttpStreamAccumulator`
(`http_stream_accumulator.cc` is not among the staged sources).  Spec section
4.4 gives it buffered bytes and the `isComplete` / `hasError` flags; spec
section 3 lists the accumulator states `empty, has-data, complete, errored`
and explicitly allows `complete ∧ errored`.  The field `id` is a ghost
creation-sequence number used only to state ordering invariants; no operation
branches on it. -/
structure HttpStreamAccumulator where
  id : Nat
  buffered : List Nat
  complete : Bool
  error : Bool
deriving DecidableEq, Repr

namespace HttpStreamAccumulator

/-- Accumulator query `IsEmpty()`: no buffered bytes remain. -/
def IsEmpty (a : HttpStreamAccumulator) : Bool := a.buffered.isEmpty

/-- Accumulator query `IsComplete()`. -/
def IsComplete (a : HttpStreamAccumulator) : Bool := a.complete

/-- Accumulator query `HasError()`. -/
def HasError (a : HttpStreamAccumulator) : Bool := a.error

/-- Modelled from the spec: `HttpStreamAccumulator::Read` drains up to
`readbytes` buffered bytes into the caller's brigade as one data bucket and
reports success; it never blocks (spec section 4.4: the accumulator is a
passive buffer).  Returns the status, the drained accumulator and the
extended brigade. -/
def Read (a : HttpStreamAccumulator) (brigade : List Bucket) (readbytes : Nat) :
    Status × HttpStreamAccumulator × List Bucket :=
  (Status.success,
   ⟨a.id, a.buffered.drop readbytes, a.complete, a.error⟩,
   brigade ++ [Bucket.bytes (a.buffered.take readbytes)])

end HttpStreamAccumulator

/-- Eviction eligibility used by `RemoveEmptyAccumulators` (lines 155-156):
`IsComplete() && (HasError() || IsEmpty())`. -/
def evictable (a : HttpStreamAccumulator) : Bool :=
  a.IsComplete && (a.HasError || a.IsEmpty)

namespace SpdyToHttpConverterFactory

/-- Lines 152-163: pop accumulators off the front of the queue while the
front one is complete and (errored or empty); stop at the first one that is
not. -/
def RemoveEmptyAccumulators : List HttpStreamAccumulator → List HttpStreamAccumulator
  | [] => []
  | a :: rest =>
      if a.IsComplete && (a.HasError || a.IsEmpty) then RemoveEmptyAccumulators rest
      else a :: rest

/-- Lines 165-172: run the cleanup, then return the front accumulator (or
none).  The first component is the queue as the mutable member `queue_` is
left by the call. -/
def GetAccumulator (q : List HttpStreamAccumulator) :
    List HttpStreamAccumulator × Option HttpStreamAccumulator :=
  let q1 := RemoveEmptyAccumulators q
  (q1, q1.head?)

/-- Lines 101-109: data is available when the (cleaned) head accumulator
exists, has no error and is not empty. -/
def IsDataAvailable (q : List HttpStreamAccumulator) :
    List HttpStreamAccumulator × Bool :=
  match GetAccumulator q with
  | (q1, none) => (q1, false)
  | (q1, some a) => (q1, !(a.HasError || a.IsEmpty))

/-- Lines 111-117: report the (cleaned) head accumulator's error flag; an
empty queue reports no error. -/
def HasError (q : List HttpStreamAccumulator) :
    List HttpStreamAccumulator × Bool :=
  match GetAccumulator q with
  | (q1, none) => (q1, false)
  | (q1, some a) => (q1, a.HasError)

/-- Result of `SpdyToHttpConverterFactory::Read`: the status, the queue as
left behind, the caller's brigade, and whether the `DCHECK(false)` error
branch at lines 123-126 was reached. -/
structure ReadResult where
  status : Status
  queue : List HttpStreamAccumulator
  brigade : List Bucket
  dcheckFired : Bool
deriving DecidableEq, Repr

/-- Lines 119-138: the error branch (`DCHECK(false)`, `APR_EGENERAL`), the
no-data branch (`APR_SUCCESS`), and otherwise a delegated read on the front
accumulator followed by another cleanup.  The `mode`/`block` arguments are
dropped: the accumulator model ignores them. -/
def Read (q : List HttpStreamAccumulator) (brigade : List Bucket)
    (readbytes : Nat) : ReadResult :=
  match HasError q with
  | (q1, true) => ⟨Status.egeneral, q1, brigade, true⟩
  | (q1, false) =>
    match IsDataAvailable q1 with
    | (q2, false) => ⟨Status.success, q2, brigade, false⟩
    | (q2, true) =>
      match GetAccumulator q2 with
      | (_, none) => ⟨Status.success, [], brigade, false⟩
      | (q3, some a) =>
        let r := a.Read brigade readbytes
        ⟨r.1, RemoveEmptyAccumulators (r.2.1 :: q3.tail), r.2.2, false⟩

/-- Lines 93-99: `Create` constructs a fresh accumulator, pushes it onto the
back of the queue, and returns a converter bound to that accumulator (here
the bound accumulator itself stands for the converter's write target).  The
factory state carries the next ghost creation number. -/
structure Factory where
  queue : List HttpStreamAccumulator
  nextId : Nat
deriving DecidableEq, Repr

/-- Lines 93-99 as a state transformer: the new factory state and the
accumulator the returned converter writes to. -/
def Create (f : Factory) : Factory × HttpStreamAccumulator :=
  let accumulator : HttpStreamAccumulator := ⟨f.nextId, [], false, false⟩
  (⟨f.queue ++ [accumulator], f.nextId + 1⟩, accumulator)

end SpdyToHttpConverterFactory

/-- NPN (protocol-negotiation) state of a connection, as tested in lines
197-224: `ConnectionContext::NOT_DONE_YET`, `USING_SPDY`, `NOT_USING_SPDY`. -/
inductive NpnState where
  | NOT_DONE_YET
  | USING_SPDY
  | NOT_USING_SPDY
deriving DecidableEq, Repr

/-- Apache input-filter read modes; the filter only distinguishes
`AP_MODE_INIT` (line 233) from everything else. -/
inductive ApMode where
  | init
  | readbytesMode
  | getlineMode
  | speculativeMode
deriving DecidableEq, Repr

/-- One `SpdyFramePump::PumpOneFrame` invocation, as the filter's loop
observes it (the pump, distributor and converter are not among the staged
sources): `none` means the pump made no progress (returns false), `some f`
means it made progress (returns true) after transforming the accumulator
queue by `f` (frames dispatched through the distributor to converters that
write into accumulators). -/
def PumpStep := Option (List HttpStreamAccumulator → List HttpStreamAccumulator)

/-- State of a `SpdyInputFilter` between external reads: the connection's
NPN state, the factory's accumulator queue, and the status the
`InputFilterInputStream` last observed from the next filter
(`input_->next_filter_rv()`). -/
structure FilterState where
  npn : NpnState
  queue : List HttpStreamAccumulator
  next_filter_rv : Status
deriving DecidableEq, Repr

/-- External environment of one `SpdyInputFilter::Read` call: what the
speculative probe read returns, the NPN state the negotiation callback has
produced once the probe forces the handshake through, the result of the
plain pass-through read, whether the connection is aborted, the pump's
behaviour for this call, and the raw-transport status the input stream holds
after the pump loop ran. -/
structure ReadEnv where
  probe_rv : Status
  npn_after_probe : NpnState
  pass_rv : Status
  pass_buckets : List Bucket
  aborted : Bool
  pump : List PumpStep
  pump_rv : Status

/-- Result of one `SpdyInputFilter::Read` call, with trace flags recording
which branch ran: whether the speculative probe was issued, whether
`PumpOneFrame` was invoked at least once, whether the converter factory /
accumulator queue was consulted after the gate, and whether the factory's
`DCHECK(false)` branch fired. -/
structure FilterReadResult where
  status : Status
  brigade : List Bucket
  state : FilterState
  probed : Bool
  pumpInvoked : Bool
  factoryInvoked : Bool
  dcheckFired : Bool
deriving DecidableEq, Repr

/-- Lines 239-248: `while (!factory_->HasError() && !factory_->IsDataAvailable())
{ if (!pump_->PumpOneFrame()) break; }`.  The pump-step list is the oracle for
successive `PumpOneFrame` calls; once it is exhausted the pump makes no
further progress.  Returns the queue as the loop leaves it and whether
`PumpOneFrame` was invoked at all. -/
def pumpLoop (q : List HttpStreamAccumulator) :
    List PumpStep → List HttpStreamAccumulator × Bool
  | [] =>
    match SpdyToHttpConverterFactory.HasError q with
    | (q1, true) => (q1, false)
    | (q1, false) =>
      match SpdyToHttpConverterFactory.IsDataAvailable q1 with
      | (q2, true) => (q2, false)
      | (q2, false) => (q2, true)
  | step :: rest =>
    match SpdyToHttpConverterFactory.HasError q with
    | (q1, true) => (q1, false)
    | (q1, false) =>
      match SpdyToHttpConverterFactory.IsDataAvailable q1 with
      | (q2, true) => (q2, false)
      | (q2, false) =>
        match step with
        | none => (q2, true)
        | some f => ((pumpLoop (f q2) rest).1, true)

namespace SpdyInputFilter

/-- Lines 238-269: the SPDY path of the unified read, reached once the gate,
abort and `AP_MODE_INIT` branches have fallen through — the pump loop, the
factory error branch that synthesizes an EOS bucket and returns
`APR_EGENERAL` (251-258), and the delegated factory read with the
drained-buffers status substitution (260-269).  `npn1` and `probed` carry
the connection state resolved by the gate. -/
def ReadSpdyPath (queue0 : List HttpStreamAccumulator) (env : ReadEnv)
    (npn1 : NpnState) (probed : Bool) (brigade : List Bucket)
    (readbytes : Nat) : FilterReadResult :=
  let pl := pumpLoop queue0 env.pump
  match SpdyToHttpConverterFactory.HasError pl.1 with
  | (q1, true) =>
    ⟨Status.egeneral, brigade ++ [Bucket.eos], ⟨npn1, q1, env.pump_rv⟩,
     probed, pl.2, true, false⟩
  | (q1, false) =>
    let fr := SpdyToHttpConverterFactory.Read q1 brigade readbytes
    if fr.status = Status.success then
      match SpdyToHttpConverterFactory.IsDataAvailable fr.queue with
      | (q2, false) =>
        ⟨env.pump_rv, fr.brigade, ⟨npn1, q2, env.pump_rv⟩,
         probed, pl.2, true, fr.dcheckFired⟩
      | (q2, true) =>
        ⟨fr.status, fr.brigade, ⟨npn1, q2, env.pump_rv⟩,
         probed, pl.2, true, fr.dcheckFired⟩
    else
      ⟨fr.status, fr.brigade, ⟨npn1, fr.queue, env.pump_rv⟩,
       probed, pl.2, true, fr.dcheckFired⟩

/-- Lines 192-270: the unified read.  In order: the NPN detection gate with
its speculative probe (197-216), the pass-through short-circuit for
connections not using SPDY (219-224), the aborted-connection branch
(226-231), the `AP_MODE_INIT` branch (233-236), then the SPDY path
(238-269). -/
def Read (st : FilterState) (env : ReadEnv) (mode : ApMode)
    (brigade : List Bucket) (readbytes : Nat) : FilterReadResult :=
  if st.npn = NpnState.NOT_DONE_YET ∧ env.probe_rv ≠ Status.success then
    -- Speculative probe failed: return its status, touch nothing else.
    ⟨env.probe_rv, brigade, st, true, false, false, false⟩
  else
    let probed := st.npn = NpnState.NOT_DONE_YET
    let npn1 :=
      if st.npn = NpnState.NOT_DONE_YET then
        if env.npn_after_probe = NpnState.NOT_DONE_YET then NpnState.NOT_USING_SPDY
        else env.npn_after_probe
      else st.npn
    let st1 : FilterState := ⟨npn1, st.queue, st.next_filter_rv⟩
    if npn1 ≠ NpnState.USING_SPDY then
      ⟨env.pass_rv, brigade ++ env.pass_buckets, st1, probed, false, false, false⟩
    else if env.aborted then
      ⟨Status.econnaborted, brigade ++ [Bucket.eos], st1, probed, false, false, false⟩
    else if mode = ApMode.init then
      ⟨Status.success, brigade, st1, probed, false, false, false⟩
    else
      ReadSpdyPath st1.queue env npn1 probed brigade readbytes

/-- A sequence of external reads on one connection, each with its own
environment, mode, byte count and a fresh empty brigade: the final filter
state and the per-call results. -/
def ReadSeq (st : FilterState) :
    List (ReadEnv × ApMode × Nat) → FilterState × List FilterReadResult
  | [] => (st, [])
  | (env, mode, readbytes) :: calls =>
    let r := Read st env mode [] readbytes
    let rest := ReadSeq r.state calls
    (rest.1, r :: rest.2)

end SpdyInputFilter

/-- The error flag of a queue's head accumulator (false for an empty queue). -/
def headHasError : List HttpStreamAccumulator → Bool
  | [] => false
  | a :: _ => a.HasError

/-- Whether a queue's head accumulator holds readable data (false for an
empty queue). -/
def headDataAvailable : List HttpStreamAccumulator → Bool
  | [] => false
  | a :: _ => !(a.HasError || a.IsEmpty)

/-- The buffered bytes of a queue's head accumulator (none for an empty
queue). -/
def headBuffered : List HttpStreamAccumulator → List Nat
  | [] => []
  | a :: _ => a.buffered

/-- The ghost creation-sequence numbers of a queue, front to back. -/
def queueIds (q : List HttpStreamAccumulator) : List Nat := q.map (·.id)

/-- Well-formedness of a factory state: the queued accumulators' creation
numbers are strictly increasing from front to back (the queue is in creation
order) and all lie below the next number to be handed out. -/
def FactoryWF (f : SpdyToHttpConverterFactory.Factory) : Prop :=
  (queueIds f.queue).Pairwise (· < ·) ∧ ∀ a ∈ f.queue, a.id < f.nextId

namespace SpdyToHttpConverterFactory

theorem removeEmpty_eq_dropWhile (q : List HttpStreamAccumulator) :
    RemoveEmptyAccumulators q = q.dropWhile evictable := by
  induction q with
  | nil => rfl
  | cons a rest ih =>
    simp only [RemoveEmptyAccumulators, List.dropWhile_cons, evictable]
    by_cases h : (a.IsComplete && (a.HasError || a.IsEmpty)) = true
    · simp [h, ih]
    · simp [h]

theorem removeEmpty_head_not_evictable (q a rest)
    (h : RemoveEmptyAccumulators q = a :: rest) : evictable a = false := by
  induction q with
  | nil => simp [RemoveEmptyAccumulators] at h
  | cons b bs ih =>
    simp only [RemoveEmptyAccumulators] at h
    by_cases hb : (b.IsComplete && (b.HasError || b.IsEmpty)) = true
    · rw [if_pos hb] at h
      exact ih h
    · rw [if_neg hb] at h
      cases h
      simpa [evictable] using hb

theorem removeEmpty_idem (q : List HttpStreamAccumulator) :
    RemoveEmptyAccumulators (RemoveEmptyAccumulators q) = RemoveEmptyAccumulators q := by
  cases hq : RemoveEmptyAccumulators q with
  | nil => rfl
  | cons a rest =>
    have ha := removeEmpty_head_not_evictable q a rest hq
    simp only [RemoveEmptyAccumulators]
    simp only [evictable] at ha
    rw [if_neg (by simp [ha])]

theorem removeEmpty_sublist (q : List HttpStreamAccumulator) :
    (RemoveEmptyAccumulators q).Sublist q := by
  rw [removeEmpty_eq_dropWhile]
  exact List.dropWhile_sublist evictable

theorem HasError_eq (q : List HttpStreamAccumulator) :
    HasError q = (RemoveEmptyAccumulators q, headHasError (RemoveEmptyAccumulators q)) := by
  simp only [HasError, GetAccumulator]
  cases RemoveEmptyAccumulators q <;> simp [headHasError]

theorem IsDataAvailable_eq (q : List HttpStreamAccumulator) :
    IsDataAvailable q
      = (RemoveEmptyAccumulators q, headDataAvailable (RemoveEmptyAccumulators q)) := by
  simp only [IsDataAvailable, GetAccumulator]
  cases RemoveEmptyAccumulators q <;> simp [headDataAvailable]

theorem Read_clean (q : List HttpStreamAccumulator) (brigade : List Bucket)
    (readbytes : Nat) :
    Read (RemoveEmptyAccumulators q) brigade readbytes = Read q brigade readbytes := by
  simp only [Read, HasError_eq, IsDataAvailable_eq, GetAccumulator, removeEmpty_idem]

theorem Read_shape (q : List HttpStreamAccumulator) (b : List Bucket) (rb : Nat) :
    ((Read q b rb).queue = RemoveEmptyAccumulators q ∧ (Read q b rb).brigade = b)
    ∨ ∃ a rest, RemoveEmptyAccumulators q = a :: rest
        ∧ (Read q b rb).queue
            = RemoveEmptyAccumulators
                (⟨a.id, a.buffered.drop rb, a.complete, a.error⟩ :: rest)
        ∧ (Read q b rb).brigade = b ++ [Bucket.bytes (a.buffered.take rb)] := by
  cases hq : RemoveEmptyAccumulators q with
  | nil =>
    left
    simp [Read, HasError_eq, IsDataAvailable_eq, hq, removeEmpty_idem,
      headHasError, headDataAvailable, RemoveEmptyAccumulators]
  | cons a rest =>
    by_cases he : a.HasError = true
    · left
      simp [Read, HasError_eq, hq, headHasError, he]
    · have hstep : RemoveEmptyAccumulators (a :: rest) = a :: rest := by
        have h := removeEmpty_idem q
        rw [hq] at h
        exact h
      by_cases hd : a.IsEmpty = true
      · left
        simp [Read, HasError_eq, IsDataAvailable_eq, hq, hstep, headHasError,
          headDataAvailable, he, hd]
      · right
        refine ⟨a, rest, rfl, ?_⟩
        simp [Read, HasError_eq, IsDataAvailable_eq, GetAccumulator, hq, hstep,
          headHasError, headDataAvailable, he, hd, HttpStreamAccumulator.Read]

theorem Read_ids_sublist (q : List HttpStreamAccumulator) (b : List Bucket)
    (rb : Nat) : (queueIds (Read q b rb).queue).Sublist (queueIds q) := by
  have hsub := removeEmpty_sublist q
  rcases Read_shape q b rb with ⟨hq, _⟩ | ⟨a, rest, hq, hq2, _⟩
  · rw [hq]
    exact hsub.map _
  · rw [hq2]
    have h1 : (queueIds (RemoveEmptyAccumulators
        (⟨a.id, a.buffered.drop rb, a.complete, a.error⟩ :: rest))).Sublist
        (queueIds (⟨a.id, a.buffered.drop rb, a.complete, a.error⟩ :: rest)) :=
      (removeEmpty_sublist _).map _
    have h2 : queueIds (⟨a.id, a.buffered.drop rb, a.complete, a.error⟩ :: rest)
        = queueIds (a :: rest) := by
      simp [queueIds]
    rw [h2] at h1
    rw [← hq] at h1
    exact h1.trans (hsub.map _)

theorem Read_dcheck_of_head_ok (q : List HttpStreamAccumulator) (b : List Bucket)
    (rb : Nat) (h : headHasError (RemoveEmptyAccumulators q) = false) :
    (Read q b rb).dcheckFired = false := by
  simp only [Read, HasError_eq, h]
  split
  · rfl
  · split
    · rfl
    · rfl

end SpdyToHttpConverterFactory

theorem pass_through_read (st : FilterState) (env : ReadEnv)
    (mode : ApMode) (brigade : List Bucket) (readbytes : Nat)
    (h : st.npn = NpnState.NOT_USING_SPDY) :
    SpdyInputFilter.Read st env mode brigade readbytes
      = ⟨env.pass_rv, brigade ++ env.pass_buckets, st, false, false, false, false⟩ := by
  obtain ⟨npn0, q0, rv0⟩ := st
  replace h : npn0 = NpnState.NOT_USING_SPDY := h
  subst h
  simp [SpdyInputFilter.Read]

theorem ReadSpdyPath_probed (queue0 : List HttpStreamAccumulator) (env : ReadEnv)
    (npn1 : NpnState) (probed : Bool) (brigade : List Bucket) (readbytes : Nat) :
    (SpdyInputFilter.ReadSpdyPath queue0 env npn1 probed brigade readbytes).probed
      = probed := by
  simp only [SpdyInputFilter.ReadSpdyPath]
  split
  · rfl
  · split
    · split
      · rfl
      · rfl
    · rfl

theorem ReadSpdyPath_dcheck (queue0 : List HttpStreamAccumulator) (env : ReadEnv)
    (npn1 : NpnState) (probed : Bool) (brigade : List Bucket) (readbytes : Nat) :
    (SpdyInputFilter.ReadSpdyPath queue0 env npn1 probed brigade readbytes).dcheckFired
      = false := by
  simp only [SpdyInputFilter.ReadSpdyPath]
  split
  · rfl
  next q1 heq =>
    rw [SpdyToHttpConverterFactory.HasError_eq] at heq
    injection heq with hq hflag
    have hok : headHasError (SpdyToHttpConverterFactory.RemoveEmptyAccumulators q1)
        = false := by
      rw [← hq, SpdyToHttpConverterFactory.removeEmpty_idem]
      exact hflag
    have hd :=
      SpdyToHttpConverterFactory.Read_dcheck_of_head_ok q1 brigade readbytes hok
    split
    · split
      · exact hd
      · exact hd
    · exact hd

theorem brigadeBytes_append (b1 b2 : List Bucket) :
    brigadeBytes (b1 ++ b2) = brigadeBytes b1 ++ brigadeBytes b2 := by
  induction b1 with
  | nil => rfl
  | cons x xs ih =>
    cases x <;> simp [brigadeBytes] at ih ⊢ <;> simp [ih]

theorem evictable_false_iff (a : HttpStreamAccumulator) :
    evictable a = false
      ↔ (a.IsComplete = false ∨ (a.HasError = false ∧ a.IsEmpty = false)) := by
  simp only [evictable, Bool.and_eq_false_iff, Bool.or_eq_false_iff]

section Claims

open SpdyToHttpConverterFactory

/-- Claim C4: the queue cleanup removes, starting at the head and stopping at
the first non-eligible element, exactly those accumulators that are complete
and (empty or errored); an accumulator that is not complete, or is complete
but still has undrained non-errored data, is never evicted. -/
theorem claim_C4_eviction_exactly_front_eligible (q : List HttpStreamAccumulator) :
    RemoveEmptyAccumulators q = q.dropWhile evictable
    ∧ (∀ a ∈ q.takeWhile evictable,
        a.IsComplete = true ∧ (a.HasError = true ∨ a.IsEmpty = true))
    ∧ (∀ a ∈ q, (a.IsComplete = false ∨ (a.HasError = false ∧ a.IsEmpty = false)) →
        a ∈ RemoveEmptyAccumulators q) := by
  refine ⟨removeEmpty_eq_dropWhile q, ?_, ?_⟩
  · intro a ha
    have h := List.mem_takeWhile_imp ha
    simpa [evictable, Bool.and_eq_true, Bool.or_eq_true] using h
  · intro a ha hcond
    have hne : evictable a = false := (evictable_false_iff a).mpr hcond
    rw [removeEmpty_eq_dropWhile]
    rw [← List.takeWhile_append_dropWhile evictable q] at ha
    rcases List.mem_append.mp ha with h | h
    · have := List.mem_takeWhile_imp h
      rw [hne] at this
      exact absurd this (by simp)
    · exact h

/-- Claim C5: the eviction cleanup is idempotent, and the query operations
`IsDataAvailable()` and `HasError()` leave the factory's observable `Read`
behaviour (status, queue and returned bytes) unchanged. -/
theorem claim_C5_cleanup_idempotent_queries_pure (q : List HttpStreamAccumulator)
    (brigade : List Bucket) (readbytes : Nat) :
    RemoveEmptyAccumulators (RemoveEmptyAccumulators q) = RemoveEmptyAccumulators q
    ∧ Read (IsDataAvailable q).1 brigade readbytes = Read q brigade readbytes
    ∧ Read (HasError q).1 brigade readbytes = Read q brigade readbytes := by
  refine ⟨removeEmpty_idem q, ?_, ?_⟩
  · rw [IsDataAvailable_eq]
    exact Read_clean q brigade readbytes
  · rw [HasError_eq]
    exact Read_clean q brigade readbytes

/-- Claim C8: `HasError()` returns true exactly when the head accumulator of
the cleaned queue reports an error (false for an empty queue); an errored
accumulator that is not at the head never makes `HasError()` true. -/
theorem claim_C8_hasError_reflects_head_only (q : List HttpStreamAccumulator) :
    (HasError q).2 = headHasError (RemoveEmptyAccumulators q)
    ∧ ∀ a rest, RemoveEmptyAccumulators q = a :: rest → a.HasError = false →
        (HasError q).2 = false := by
  constructor
  · rw [HasError_eq]
  · intro a rest hq ha
    rw [HasError_eq, hq]
    simpa [headHasError] using ha

/-- Claim C8 witness: a queue whose head holds data and whose second,
errored accumulator does not surface through `HasError()`. -/
theorem claim_C8_hasError_reflects_head_only_witness :
    (HasError [⟨0, [1], false, false⟩, ⟨1, [2], false, true⟩]).2 = false :=
  (claim_C8_hasError_reflects_head_only
      [⟨0, [1], false, false⟩, ⟨1, [2], false, true⟩]).2
    ⟨0, [1], false, false⟩ [⟨1, [2], false, true⟩] (by decide) (by decide)

/-- Claim C10: `Create` pushes exactly one freshly constructed accumulator
onto the back of the queue and returns it as the new converter's write
target; creation numbers stay a strictly increasing front-to-back sequence
under `Create`, cleanup and `Read`, so the queue's order always equals the
streams' creation order. -/
theorem claim_C10_create_appends_order_invariant
    (f : SpdyToHttpConverterFactory.Factory) (q : List HttpStreamAccumulator)
    (brigade : List Bucket) (readbytes : Nat) :
    (Create f).1.queue = f.queue ++ [(Create f).2]
    ∧ (Create f).2 = ⟨f.nextId, [], false, false⟩
    ∧ (Create f).1.nextId = f.nextId + 1
    ∧ (FactoryWF f → FactoryWF (Create f).1)
    ∧ ((queueIds q).Pairwise (· < ·) →
        (queueIds (RemoveEmptyAccumulators q)).Pairwise (· < ·)
        ∧ (queueIds (Read q brigade readbytes).queue).Pairwise (· < ·)) := by
  refine ⟨rfl, rfl, rfl, ?_, ?_⟩
  · rintro ⟨hpw, hbound⟩
    constructor
    · simp only [Create, queueIds, List.map_append, List.map_cons, List.map_nil]
      rw [List.pairwise_append]
      refine ⟨hpw, by simp, ?_⟩
      intro x hx y hy
      simp only [List.mem_map] at hx
      obtain ⟨a, ha, rfl⟩ := hx
      simp only [List.mem_cons, List.not_mem_nil, or_false] at hy
      subst hy
      exact hbound a ha
    · intro a ha
      simp only [Create, List.mem_append, List.mem_cons, List.not_mem_nil,
        or_false] at ha
      rcases ha with h | h
      · exact Nat.lt_succ_of_lt (hbound a h)
      · subst h
        exact Nat.lt_succ_self _
  · intro hpw
    refine ⟨hpw.sublist ((removeEmpty_sublist q).map _), ?_⟩
    exact hpw.sublist (Read_ids_sublist q brigade readbytes)

/-- Claim C1: the factory's unified `Read` only ever delegates to the front
accumulator of the creation-ordered queue: the bytes it appends are a prefix
of the cleaned queue's head accumulator's buffer, and every accumulator
behind the head either stays in place untouched or the resulting queue is a
suffix of the untouched tail (front evictions only) — so no byte of a
later-created stream is ever returned before the head is evicted. -/
theorem claim_C1_head_of_line_ordering (q : List HttpStreamAccumulator)
    (brigade : List Bucket) (readbytes : Nat) :
    (∃ n, brigadeBytes (Read q brigade readbytes).brigade
        = brigadeBytes brigade ++ (headBuffered (RemoveEmptyAccumulators q)).take n)
    ∧ ∀ a rest, RemoveEmptyAccumulators q = a :: rest →
        (∃ a2, (Read q brigade readbytes).queue = a2 :: rest ∧ a2.id = a.id
            ∧ ∃ m, a2.buffered = a.buffered.drop m)
        ∨ List.IsSuffix (Read q brigade readbytes).queue rest := by
  rcases Read_shape q brigade readbytes with ⟨hqu, hbr⟩ | ⟨a, rest, hq, hqu, hbr⟩
  · constructor
    · exact ⟨0, by simp [hbr]⟩
    · intro a rest h
      left
      exact ⟨a, by rw [hqu, h], rfl, 0, by simp⟩
  · constructor
    · refine ⟨readbytes, ?_⟩
      rw [hbr, brigadeBytes_append, hq]
      simp [brigadeBytes, headBuffered]
    · intro a2 rest2 h2
      rw [hq] at h2
      cases h2
      rw [hqu]
      by_cases hev :
          evictable ⟨a.id, a.buffered.drop readbytes, a.complete, a.error⟩ = true
      · right
        simp only [evictable] at hev
        simp only [RemoveEmptyAccumulators]
        rw [if_pos hev, removeEmpty_eq_dropWhile]
        exact List.dropWhile_suffix evictable
      · left
        refine ⟨⟨a.id, a.buffered.drop readbytes, a.complete, a.error⟩, ?_, rfl,
          readbytes, rfl⟩
        simp only [evictable] at hev
        simp only [RemoveEmptyAccumulators]
        rw [if_neg hev]

/-- Claim C7: once the detection state is `NOT_USING_SPDY`, every subsequent
`Read` on the connection delegates directly to the next filter (pure
pass-through), never invokes the frame pump, the converter factory or the
accumulator queue, and the state (NPN state included) never changes again. -/
theorem claim_C7_permanent_pass_through (st : FilterState)
    (calls : List (ReadEnv × ApMode × Nat))
    (h : st.npn = NpnState.NOT_USING_SPDY) :
    (SpdyInputFilter.ReadSeq st calls).1 = st
    ∧ (SpdyInputFilter.ReadSeq st calls).2
        = calls.map (fun c =>
            ⟨c.1.pass_rv, c.1.pass_buckets, st, false, false, false, false⟩) := by
  induction calls with
  | nil => exact ⟨rfl, rfl⟩
  | cons c cs ih =>
    obtain ⟨env, mode, rb⟩ := c
    have hr := pass_through_read st env mode [] rb h
    simp only [SpdyInputFilter.ReadSeq, hr, List.map_cons]
    exact ⟨ih.1, by rw [ih.2]; simp⟩

/-- Claim C7 witness: one concrete pass-through read leaves the state of a
`NOT_USING_SPDY` connection untouched. -/
theorem claim_C7_permanent_pass_through_witness :
    (SpdyInputFilter.ReadSeq ⟨NpnState.NOT_USING_SPDY, [], Status.success⟩
        [(⟨Status.success, NpnState.NOT_USING_SPDY, Status.eagain, [Bucket.eos],
            false, [], Status.success⟩, ApMode.readbytesMode, 4)]).1
      = ⟨NpnState.NOT_USING_SPDY, [], Status.success⟩ :=
  (claim_C7_permanent_pass_through ⟨NpnState.NOT_USING_SPDY, [], Status.success⟩
      [(⟨Status.success, NpnState.NOT_USING_SPDY, Status.eagain, [Bucket.eos],
          false, [], Status.success⟩, ApMode.readbytesMode, 4)] rfl).1

/-- Claim C6: while the detection state is undetermined, every external
`Read` issues the speculative probe; if the probe fails, `Read` returns that
failure status with the whole state (detection state included) unchanged;
if the probe succeeds but the negotiation signal is still undetermined, the
detection state is set to `NOT_USING_SPDY`. -/
theorem claim_C6_undetermined_probe (st : FilterState) (env : ReadEnv)
    (mode : ApMode) (brigade : List Bucket) (readbytes : Nat)
    (h : st.npn = NpnState.NOT_DONE_YET) :
    (SpdyInputFilter.Read st env mode brigade readbytes).probed = true
    ∧ (env.probe_rv ≠ Status.success →
        (SpdyInputFilter.Read st env mode brigade readbytes).status = env.probe_rv
        ∧ (SpdyInputFilter.Read st env mode brigade readbytes).state = st)
    ∧ (env.probe_rv = Status.success →
        env.npn_after_probe = NpnState.NOT_DONE_YET →
        (SpdyInputFilter.Read st env mode brigade readbytes).state.npn
          = NpnState.NOT_USING_SPDY) := by
  refine ⟨?_, ?_, ?_⟩
  · by_cases hp : env.probe_rv = Status.success
    · simp only [SpdyInputFilter.Read, h]
      repeat' split
      all_goals simp [ReadSpdyPath_probed]
    · simp [SpdyInputFilter.Read, h, hp]
  · intro hp
    simp [SpdyInputFilter.Read, h, hp]
  · intro hp hnp
    simp [SpdyInputFilter.Read, h, hp, hnp]

/-- Claim C6 witness: a failing probe's status is propagated and the state
left unchanged at a concrete undetermined connection. -/
theorem claim_C6_undetermined_probe_witness :
    (SpdyInputFilter.Read ⟨NpnState.NOT_DONE_YET, [], Status.success⟩
        ⟨Status.eagain, NpnState.NOT_DONE_YET, Status.success, [], false, [],
          Status.success⟩ ApMode.readbytesMode [] 1).status = Status.eagain
    ∧ (SpdyInputFilter.Read ⟨NpnState.NOT_DONE_YET, [], Status.success⟩
        ⟨Status.eagain, NpnState.NOT_DONE_YET, Status.success, [], false, [],
          Status.success⟩ ApMode.readbytesMode [] 1).state
      = ⟨NpnState.NOT_DONE_YET, [], Status.success⟩ :=
  (claim_C6_undetermined_probe ⟨NpnState.NOT_DONE_YET, [], Status.success⟩
      ⟨Status.eagain, NpnState.NOT_DONE_YET, Status.success, [], false, [],
        Status.success⟩ ApMode.readbytesMode [] 1 rfl).2.1 (by decide)

/-- Claim C3: on the SPDY path, when the delegated factory read succeeds but
afterwards no data is available in any accumulator, the unified `Read`
returns the status last observed from the raw transport read rather than a
synthetic success. -/
theorem claim_C3_drained_returns_transport_status (st : FilterState)
    (env : ReadEnv) (mode : ApMode) (brigade : List Bucket) (readbytes : Nat)
    (hnpn : st.npn = NpnState.USING_SPDY) (hab : env.aborted = false)
    (hmode : mode ≠ ApMode.init)
    (hok : headHasError
        (RemoveEmptyAccumulators (pumpLoop st.queue env.pump).1) = false)
    (hrv : (Read (RemoveEmptyAccumulators (pumpLoop st.queue env.pump).1)
        brigade readbytes).status = Status.success)
    (hnd : headDataAvailable (RemoveEmptyAccumulators
        (Read (RemoveEmptyAccumulators (pumpLoop st.queue env.pump).1)
          brigade readbytes).queue) = false) :
    (SpdyInputFilter.Read st env mode brigade readbytes).status = env.pump_rv := by
  simp [SpdyInputFilter.Read, SpdyInputFilter.ReadSpdyPath, hnpn, hab, hmode,
    HasError_eq, hok, IsDataAvailable_eq, hrv, hnd]

/-- Claim C3 witness: with an empty queue, a pump that makes no progress and
a raw transport that reported would-block, the unified read returns
would-block without error. -/
theorem claim_C3_drained_returns_transport_status_witness :
    (SpdyInputFilter.Read ⟨NpnState.USING_SPDY, [], Status.success⟩
        ⟨Status.success, NpnState.USING_SPDY, Status.success, [], false,
          [Option.none], Status.eagain⟩ ApMode.readbytesMode [] 8).status
      = Status.eagain :=
  claim_C3_drained_returns_transport_status
    ⟨NpnState.USING_SPDY, [], Status.success⟩
    ⟨Status.success, NpnState.USING_SPDY, Status.success, [], false,
      [Option.none], Status.eagain⟩ ApMode.readbytesMode [] 8
    rfl rfl (by decide) rfl rfl rfl

/-- Claim C2 counterexample: an accumulator that is errored and also
complete never surfaces `APR_EGENERAL`: when it is the front of the queue,
the cleanup inside the very first `HasError()` query silently evicts it, the
unified `Read` appends no end-of-stream bucket and returns the raw
transport's status instead of the general failure the claim requires. -/
theorem claim_C2_errored_head_counterexample :
    (SpdyInputFilter.Read
        ⟨NpnState.USING_SPDY, [⟨0, [7], true, true⟩], Status.success⟩
        ⟨Status.success, NpnState.USING_SPDY, Status.success, [], false, [],
          Status.eagain⟩ ApMode.readbytesMode [] 5).status ≠ Status.egeneral
    ∧ (SpdyInputFilter.Read
        ⟨NpnState.USING_SPDY, [⟨0, [7], true, true⟩], Status.success⟩
        ⟨Status.success, NpnState.USING_SPDY, Status.success, [], false, [],
          Status.eagain⟩ ApMode.readbytesMode [] 5).brigade = [] := by
  decide

/-- Claim C2 (amended): for every stream whose accumulator is errored and
not yet complete, once that accumulator reaches the head of the queue the
unified `SpdyInputFilter::Read` appends an end-of-stream bucket to the
caller's brigade and returns the general-failure status. -/
theorem claim_C2_errored_head_surfaces_egeneral (st : FilterState)
    (env : ReadEnv) (mode : ApMode) (brigade : List Bucket) (readbytes : Nat)
    (hnpn : st.npn = NpnState.USING_SPDY) (hab : env.aborted = false)
    (hmode : mode ≠ ApMode.init) (a : HttpStreamAccumulator)
    (rest : List HttpStreamAccumulator)
    (hhead : RemoveEmptyAccumulators (pumpLoop st.queue env.pump).1 = a :: rest)
    (_hcomp : a.IsComplete = false) (herr : a.HasError = true) :
    (SpdyInputFilter.Read st env mode brigade readbytes).status = Status.egeneral
    ∧ (SpdyInputFilter.Read st env mode brigade readbytes).brigade
        = brigade ++ [Bucket.eos] := by
  have h1 := HasError_eq (pumpLoop st.queue env.pump).1
  rw [hhead] at h1
  simp only [headHasError, herr] at h1
  simp [SpdyInputFilter.Read, SpdyInputFilter.ReadSpdyPath, hnpn, hab, hmode, h1]

/-- Claim C2 witness: an errored, not-yet-complete accumulator at the head
of a concrete queue yields `APR_EGENERAL` plus an end-of-stream bucket. -/
theorem claim_C2_errored_head_surfaces_egeneral_witness :
    (SpdyInputFilter.Read
        ⟨NpnState.USING_SPDY, [⟨0, [9], false, true⟩], Status.success⟩
        ⟨Status.success, NpnState.USING_SPDY, Status.success, [], false, [],
          Status.success⟩ ApMode.readbytesMode [] 3).status = Status.egeneral
    ∧ (SpdyInputFilter.Read
        ⟨NpnState.USING_SPDY, [⟨0, [9], false, true⟩], Status.success⟩
        ⟨Status.success, NpnState.USING_SPDY, Status.success, [], false, [],
          Status.success⟩ ApMode.readbytesMode [] 3).brigade = [Bucket.eos] :=
  claim_C2_errored_head_surfaces_egeneral
    ⟨NpnState.USING_SPDY, [⟨0, [9], false, true⟩], Status.success⟩
    ⟨Status.success, NpnState.USING_SPDY, Status.success, [], false, [],
      Status.success⟩ ApMode.readbytesMode [] 3 rfl rfl (by decide)
    ⟨0, [9], false, true⟩ [] rfl rfl rfl

/-- Claim C9: the `DCHECK(false)` / `APR_EGENERAL` error branch at the top
of the factory's `Read` is unreachable when invoked from
`SpdyInputFilter::Read`, because the caller returns early on its own error
path whenever the factory reports an error before delegating. -/
theorem claim_C9_factory_error_branch_unreachable (st : FilterState)
    (env : ReadEnv) (mode : ApMode) (brigade : List Bucket) (readbytes : Nat) :
    (SpdyInputFilter.Read st env mode brigade readbytes).dcheckFired = false := by
  cases hst : st.npn with
  | NOT_DONE_YET =>
    by_cases hp : env.probe_rv = Status.success
    · cases hnp : env.npn_after_probe with
      | NOT_DONE_YET => simp [SpdyInputFilter.Read, hst, hp, hnp]
      | USING_SPDY =>
        by_cases hab : env.aborted = true
        · simp [SpdyInputFilter.Read, hst, hp, hnp, hab]
        · by_cases hm : mode = ApMode.init
          · simp [SpdyInputFilter.Read, hst, hp, hnp, hab, hm]
          · simp [SpdyInputFilter.Read, hst, hp, hnp, hab, hm, ReadSpdyPath_dcheck]
      | NOT_USING_SPDY => simp [SpdyInputFilter.Read, hst, hp, hnp]
    · simp [SpdyInputFilter.Read, hst, hp]
  | USING_SPDY =>
    by_cases hab : env.aborted = true
    · simp [SpdyInputFilter.Read, hst, hab]
    · by_cases hm : mode = ApMode.init
      · simp [SpdyInputFilter.Read, hst, hab, hm]
      · simp [SpdyInputFilter.Read, hst, hab, hm, ReadSpdyPath_dcheck]
  | NOT_USING_SPDY => simp [SpdyInputFilter.Read, hst]

end Claims

end ModSpdy
